import Mathlib

/-!
Verification development for the AgentOps trace/span lifecycle core.

The repository slice at hand ships the documentation of the core (decorator
hierarchy, trace lifecycle, context-manager protocol, state mapping) while the
implementation itself lives outside the slice.  The definitions below are
therefore a shallow embedding of that core, modelled from the specification:
spans, the trace registry, the context propagation store, the instrumentation
wrappers for nested calls and generators, and the trace state mapper.
-/

/-- Modelled from the spec: the canonical trace end-state enum of the Trace
State Mapper, one of SUCCESS, ERROR, UNSET. -/
inductive TraceState where
  | SUCCESS
  | ERROR
  | UNSET
deriving Repr, DecidableEq

/-- Modelled from the spec: the external status-code-like vocabulary
(the OpenTelemetry StatusCode tokens OK, ERROR, UNSET). -/
inductive StatusCode where
  | OK
  | ERROR
  | UNSET
deriving Repr, DecidableEq

/-- Modelled from the spec: the span kinds produced by the decorator surface
(SESSION, AGENT, OPERATION, TASK, WORKFLOW, TOOL, GUARDRAIL, LLM). -/
inductive SpanKind where
  | SESSION
  | AGENT
  | OPERATION
  | TASK
  | WORKFLOW
  | TOOL
  | GUARDRAIL
  | LLM
deriving Repr, DecidableEq

/-- Modelled from the spec: a span record, carrying identity (trace-id,
span-id, nullable parent-span-id), kind, name, status, status message and
start/end times.  The end time is `none` while the span is open. -/
structure Span where
  spanId : Nat
  traceId : Nat
  parentSpanId : Option Nat
  kind : SpanKind
  name : String
  status : TraceState
  statusMessage : Option String
  startTime : Nat
  endTime : Option Nat
deriving Repr, DecidableEq

/-- Modelled from the spec: the state of the lifecycle core — all spans created
so far, the registry of open traces (their root span ids), the context
propagation store (a stack of pairs of span id and attach token), counters for
fresh ids and tokens, a logical clock, and the list of exported span ids
(export happens exactly when a span is closed). -/
structure Core where
  spans : List Span
  registry : List Nat
  ctx : List (Nat × Nat)
  nextId : Nat
  nextTok : Nat
  clock : Nat
  exported : List Nat
deriving Repr, DecidableEq

/-- Modelled from the spec: the empty core state, before any trace exists. -/
def Core.init : Core :=
  { spans := [], registry := [], ctx := [], nextId := 0, nextTok := 0,
    clock := 0, exported := [] }

/-- Modelled from the spec: look a span up by its span id. -/
def findSpan (c : Core) (sid : Nat) : Option Span :=
  c.spans.find? (fun s => s.spanId == sid)

/-- Modelled from the spec: the field update applied when a span is closed with
a status and message at a given time. -/
def closeSpanFields (st : TraceState) (msg : Option String) (time : Nat)
    (s : Span) : Span :=
  { s with status := st, statusMessage := msg, endTime := some time }

/-- Modelled from the spec: close a span.  Closing is idempotent — if the span
is unknown or already has an end time this is a silent no-op; otherwise its
status, message and end time are set and the finished span is exported. -/
def closeSpan (c : Core) (sid : Nat) (st : TraceState) (msg : Option String) :
    Core :=
  match findSpan c sid with
  | some s =>
    if s.endTime.isSome then c
    else
      { c with
        spans := c.spans.map
          (fun x => if x.spanId == sid then closeSpanFields st msg c.clock x else x),
        exported := sid :: c.exported,
        clock := c.clock + 1 }
  | none => c

/-- Modelled from the spec: the context propagation store's current span id,
the top of the context stack for the running flow of control. -/
def currentId (c : Core) : Option Nat :=
  c.ctx.head?.map (fun e => e.1)

/-- Modelled from the spec: pop of the context store.  A matching token at the
top restores exactly the context below it.  A stale or mismatched token is a
programming error that is absorbed: the store logs (second component `true`)
and restores best-effort — down to just below the matching entry when the
token occurs deeper in the stack, otherwise to the nearest ancestor. -/
def ctxPop (stack : List (Nat × Nat)) (tok : Nat) :
    List (Nat × Nat) × Bool :=
  match stack with
  | [] => ([], true)
  | e :: rest =>
    if e.2 = tok then (rest, false)
    else if rest.any (fun x => x.2 == tok) then
      ((rest.dropWhile (fun x => x.2 != tok)).tail, true)
    else (rest, true)

/-- Modelled from the spec: detach a context from the core by token. -/
def popCtx (c : Core) (tok : Nat) : Core :=
  { c with ctx := (ctxPop c.ctx tok).1 }

/-- Modelled from the spec: the trace id a newly opened child span belongs to —
the trace of the span that is current at entry, or a fresh trace id when no
context is active (an ad-hoc root). -/
def parentTraceId (c : Core) : Nat :=
  ((((currentId c).bind (fun p => findSpan c p)).map Span.traceId).getD
    c.nextId)

/-- Modelled from the spec: open a span for a wrapped call.  Its parent is
always the current context at the moment of entry, it joins the parent's
trace, and it is pushed onto the context store.  Returns the new span id, the
attach token, and the new core state. -/
def openChild (c : Core) (k : SpanKind) (nm : String) : Nat × Nat × Core :=
  let sid := c.nextId
  let sp : Span :=
    { spanId := sid, traceId := parentTraceId c, parentSpanId := currentId c,
      kind := k, name := nm, status := .UNSET, statusMessage := none,
      startTime := c.clock, endTime := none }
  (sid, c.nextTok,
   { c with
     spans := sp :: c.spans,
     ctx := (sid, c.nextTok) :: c.ctx,
     nextId := c.nextId + 1,
     nextTok := c.nextTok + 1,
     clock := c.clock + 1 })

/-- Modelled from the spec: a tree of nested wrapped (decorated) calls executed
within one flow of control; each node is one wrapped call with its kind, its
span name, and the wrapped calls it makes in turn. -/
inductive CallTree where
  | node (kind : SpanKind) (nm : String) (children : List CallTree)
deriving Repr

mutual
/-- Modelled from the spec: run one wrapped call — open a span whose parent is
the current context, push it, run the nested calls, then close the span and
pop the context with the matching token. -/
def runCall (c : Core) (t : CallTree) : Core :=
  match t with
  | .node k nm children =>
    let r := openChild c k nm
    let c2 := runCalls r.2.2 children
    popCtx (closeSpan c2 r.1 .SUCCESS none) r.2.1
termination_by sizeOf t

/-- Modelled from the spec: run a sequence of wrapped calls in order. -/
def runCalls (c : Core) (ts : List CallTree) : Core :=
  match ts with
  | [] => c
  | t :: ts2 => runCalls (runCall c t) ts2
termination_by sizeOf ts
end

/-- Modelled from the spec: the signature of a span relevant to the nesting
invariant — its span id, its parent-span-id and its trace id. -/
def spanSig (s : Span) : Nat × Option Nat × Nat :=
  (s.spanId, s.parentSpanId, s.traceId)

mutual
/-- Modelled from the spec (the nesting rule of the wrapper factory): the
span signatures, in creation order, that a nested call tree must produce when
entered with fresh-id counter `nid`, inside trace `tid`, while `par` is the
current context — the call itself opens span `nid` parented on exactly `par`,
and its nested calls run with span `nid` as the current context, so each
inner call is parented on precisely the span that is current at its own
entry.  Also returns the fresh-id counter after the call. -/
def callSpans (nid tid : Nat) (par : Option Nat) (t : CallTree) :
    List (Nat × Option Nat × Nat) × Nat :=
  match t with
  | .node _ _ children =>
    let r := callSpansList (nid + 1) tid (some nid) children
    ((nid, par, tid) :: r.1, r.2)
termination_by sizeOf t

/-- Modelled from the spec: the span signatures of a sequence of sibling
calls, run in order under one current context. -/
def callSpansList (nid tid : Nat) (par : Option Nat) (ts : List CallTree) :
    List (Nat × Option Nat × Nat) × Nat :=
  match ts with
  | [] => ([], nid)
  | t :: ts2 =>
    let r := callSpans nid tid par t
    let r2 := callSpansList r.2 tid par ts2
    (r.1 ++ r2.1, r2.2)
termination_by sizeOf ts
end

/-- Modelled from the spec: an application exception, with its type and
message; the wrapper re-raises it unchanged. -/
structure Err where
  ty : String
  msg : String
deriving Repr, DecidableEq

/-- Modelled from the spec: the stringified form of an error recorded as a
span's status message. -/
def errToString (e : Err) : String :=
  e.ty ++ ": " ++ e.msg

/-- Modelled from the spec: the synchronous instrumentation wrapper around a
callable whose outcome is `body` — open a span, then on normal return close it
with SUCCESS and pop; on a raised error close it with ERROR and the
stringified error, pop, and re-raise the same error to the caller. -/
def wrapSync (α : Type) (c : Core) (k : SpanKind) (nm : String)
    (body : Except Err α) : Except Err α × Core :=
  let r := openChild c k nm
  match body with
  | .ok v => (.ok v, popCtx (closeSpan r.2.2 r.1 .SUCCESS none) r.2.1)
  | .error e =>
    (.error e, popCtx (closeSpan r.2.2 r.1 .ERROR (some (errToString e))) r.2.1)

/-- Modelled from the spec: start a trace — create a root span with a fresh
trace id and a null parent, register it as open, and push it as the current
context.  Returns the trace handle (the root span id). -/
def startTrace (c : Core) (nm : String) : Nat × Core :=
  let sid := c.nextId
  let root : Span :=
    { spanId := sid, traceId := sid, parentSpanId := none, kind := .SESSION,
      name := nm, status := .UNSET, statusMessage := none,
      startTime := c.clock, endTime := none }
  (sid,
   { c with
     spans := root :: c.spans,
     registry := sid :: c.registry,
     ctx := (sid, c.nextTok) :: c.ctx,
     nextId := c.nextId + 1,
     nextTok := c.nextTok + 1,
     clock := c.clock + 1 })

/-- Modelled from the spec: end one trace by handle — if the handle is open,
close its root span with the given state and atomically remove it from the
registry and the context store; an unknown or already-ended handle is a silent
no-op. -/
def endTraceOne (c : Core) (h : Nat) (st : TraceState) : Core :=
  if h ∈ c.registry then
    let c1 := closeSpan c h st none
    { c1 with
      registry := c1.registry.filter (fun x => x != h),
      ctx := c1.ctx.filter (fun e => e.1 != h) }
  else c

/-- Modelled from the spec: end every currently-open trace with the given
state and empty the registry. -/
def endAll (c : Core) (st : TraceState) : Core :=
  let c1 := c.registry.foldl (fun acc h => closeSpan acc h st none) c
  { c1 with registry := [] }

/-- Modelled from the spec: the end-trace entry point — with a handle it ends
that one trace, with no handle it ends all open traces. -/
def endTrace (c : Core) (h : Option Nat) (st : TraceState) : Core :=
  match h with
  | some hh => endTraceOne c hh st
  | none => endAll c st

/-- Modelled from the spec: the trace handle used as a scoped-acquisition
(context-manager) construct — entering performs start_trace, and on leaving
the scope end_trace runs with SUCCESS on normal completion and ERROR when an
error propagates out of the body, which is re-raised to the caller. -/
def withTrace (α : Type) (c : Core) (nm : String) (body : Except Err α) :
    Except Err α × Core :=
  let r := startTrace c nm
  match body with
  | .ok v => (.ok v, endTraceOne r.2 r.1 .SUCCESS)
  | .error e => (.error e, endTraceOne r.2 r.1 .ERROR)

/-- Modelled from the spec: heterogeneous end-state input accepted by the
Trace State Mapper — a canonical enum value, an external status-code token, or
a free-form string. -/
inductive EndStateInput where
  | enum (t : TraceState)
  | code (s : StatusCode)
  | str (s : String)
deriving Repr, DecidableEq

/-- Modelled from the spec: ASCII lowercasing of one character, used for the
case-insensitive string match of the Trace State Mapper. -/
def lowerChar (c : Char) : Char :=
  if 64 < c.toNat ∧ c.toNat < 91 then Char.ofNat (c.toNat + 32) else c

/-- Modelled from the spec: ASCII lowercasing of a string. -/
def lowerString (s : String) : String :=
  String.mk (s.data.map lowerChar)

/-- Modelled from the spec: the Trace State Mapper.  Enum values pass through,
OK maps to SUCCESS, strings are matched case-insensitively with "Success" to
SUCCESS, "Error" to ERROR, and "Indeterminate" or anything unrecognized to
UNSET; with no input the result is the declared default SUCCESS. -/
def normalizeState : Option EndStateInput → TraceState
  | none => .SUCCESS
  | some (.enum t) => t
  | some (.code .OK) => .SUCCESS
  | some (.code .ERROR) => .ERROR
  | some (.code .UNSET) => .UNSET
  | some (.str s) =>
    if lowerString s = "success" then .SUCCESS
    else if lowerString s = "error" then .ERROR
    else .UNSET

/-- Modelled from the spec: the state of a wrapped generator — the id and
token of its span, how many items the underlying generator yields in total,
how many have been yielded so far, and whether the wrapper has finished (its
span has been closed). -/
structure GenState where
  sid : Nat
  tok : Nat
  total : Nat
  yielded : Nat
  finished : Bool
deriving Repr, DecidableEq

/-- Modelled from the spec: first resumption of a wrapped generator — open its
span; the context is not held across yields, so it is detached again at the
suspension point. -/
def genOpen (c : Core) (k : SpanKind) (nm : String) (total : Nat) :
    GenState × Core :=
  let r := openChild c k nm
  ({ sid := r.1, tok := r.2.1, total := total, yielded := 0, finished := false },
   popCtx r.2.2 r.2.1)

/-- Modelled from the spec: one resumption of a wrapped generator — yield the
next item, or, when the underlying generator is exhausted, close the span with
SUCCESS. -/
def genStep (c : Core) (g : GenState) : Core × GenState :=
  if g.finished then (c, g)
  else if g.yielded < g.total then (c, { g with yielded := g.yielded + 1 })
  else (closeSpan c g.sid .SUCCESS none, { g with finished := true })

/-- Modelled from the spec: closing a wrapped generator (an explicit early
close or garbage-finalization of an abandoned generator) — if the span is
still open this is treated as an error exit and the span is closed with
ERROR rather than left open. -/
def genClose (c : Core) (g : GenState) : Core × GenState :=
  if g.finished then (c, g)
  else
    (closeSpan c g.sid .ERROR (some "generator closed before exhaustion"),
     { g with finished := true })

/-- Modelled from the spec: iterate a wrapped generator for a number of
resumptions. -/
def genSteps (c : Core) (g : GenState) : Nat → Core × GenState
  | 0 => (c, g)
  | n + 1 =>
    let r := genStep c g
    genSteps r.1 r.2 n

/-- Modelled from the spec: a custom attribute value; values the serializer
cannot handle are carried with their type name. -/
inductive AttrValue where
  | str (s : String)
  | num (n : Int)
  | boolean (b : Bool)
  | unserializable (ty : String)
deriving Repr, DecidableEq

/-- Modelled from the spec: best-effort attribute serialization — scalar
values are rendered, non-serializable values are recorded as a type
placeholder and never raise. -/
def serializeAttr : AttrValue → String
  | .str s => s
  | .num n => toString n
  | .boolean b => toString b
  | .unserializable ty => "<non-serializable: " ++ ty ++ ">"

/-- Well-formedness of the id counter: every span id and trace id in the core
is below the fresh-id counter. -/
def SpansOK (c : Core) : Prop :=
  ∀ s ∈ c.spans, s.spanId < c.nextId ∧ s.traceId < c.nextId

/-- Well-formedness of the context store: every stack entry refers to a span
that exists and has an id below the fresh-id counter. -/
def CtxOK (c : Core) : Prop :=
  ∀ e ∈ c.ctx, e.1 < c.nextId ∧ (findSpan c e.1).isSome

/-- The observable fact that a trace handle has been fully ended in a core
state: it is no longer registered as open and its root span is closed with the
given status. -/
def rootEnded (c : Core) (h : Nat) (st : TraceState) : Prop :=
  h ∉ c.registry ∧
  ∃ s, findSpan c h = some s ∧ s.endTime.isSome ∧ s.status = st

/-- Modelled from the spec: a wrapped generator that is resumed a number of
times and then closed (abandoned) — the scenario of generator leak-freedom. -/
def genScenario (c : Core) (k : SpanKind) (nm : String) (total n : Nat) :
    Core × GenState :=
  let r := genOpen c k nm total
  let r2 := genSteps r.2 r.1 n
  genClose r2.1 r2.2

/-- The shape of the state change a wrapped call performs: the fresh-id
counter only grows, the context stack is restored, and the spans list gains a
block of new spans, each inside the trace that was current at entry and
parented on the entry context or on another new span of the block. -/
def WrapExtends (c c2 : Core) : Prop :=
  c.nextId ≤ c2.nextId ∧ c2.ctx = c.ctx ∧
  ∃ new : List Span, c2.spans = new ++ c.spans ∧
    ∀ s ∈ new, (c.nextId ≤ s.spanId ∧ s.spanId < c2.nextId) ∧
      s.traceId = parentTraceId c ∧
      (s.parentSpanId = currentId c ∨
        ∃ q ∈ new.map Span.spanId, s.parentSpanId = some q)

/-- A concrete core with one open trace, for instantiating the general
theorems. -/
def coreOne : Core := (startTrace Core.init "session").2

/-- A concrete core with two open traces started without ending either, for
instantiating the general theorems. -/
def coreTwo : Core := (startTrace (startTrace Core.init "workflow_1").2 "workflow_2").2

/-- A concrete small call tree: an agent call that makes one tool call. -/
def sampleTree : CallTree := .node .AGENT "agent" [.node .TOOL "tool" []]

instance (c : Core) : Decidable (SpansOK c) := by
  unfold SpansOK
  infer_instance

instance (c : Core) : Decidable (CtxOK c) := by
  unfold CtxOK
  infer_instance

theorem find?_map_key (p : Span → Bool) (f : Span → Span)
    (hp : ∀ x, p (f x) = p x) (l : List Span) :
    (l.map f).find? p = (l.find? p).map f := by
  induction l with
  | nil => rfl
  | cons a l ih =>
    by_cases h : p a = true
    · rw [List.map_cons, List.find?_cons_of_pos _ ((hp a).trans h),
        List.find?_cons_of_pos _ h]
      rfl
    · have h2 : p a = false := by
        cases hh : p a
        · rfl
        · exact absurd hh h
      rw [List.map_cons,
        List.find?_cons_of_neg _ (ne_true_of_eq_false ((hp a).trans h2)),
        List.find?_cons_of_neg _ (ne_true_of_eq_false h2)]
      exact ih

theorem closeSpanFields_spanId (st : TraceState) (m : Option String) (t : Nat)
    (s : Span) : (closeSpanFields st m t s).spanId = s.spanId := rfl

theorem closeBody_spanId (sid : Nat) (st : TraceState) (m : Option String)
    (t : Nat) (x : Span) :
    (if x.spanId == sid then closeSpanFields st m t x else x).spanId = x.spanId := by
  by_cases h : (x.spanId == sid) = true
  · rw [if_pos h]; rfl
  · rw [if_neg h]

theorem closeSpan_registry (c : Core) (sid : Nat) (st : TraceState)
    (m : Option String) : (closeSpan c sid st m).registry = c.registry := by
  unfold closeSpan
  split
  · split <;> rfl
  · rfl

theorem closeSpan_ctx (c : Core) (sid : Nat) (st : TraceState)
    (m : Option String) : (closeSpan c sid st m).ctx = c.ctx := by
  unfold closeSpan
  split
  · split <;> rfl
  · rfl

theorem closeSpan_nextId (c : Core) (sid : Nat) (st : TraceState)
    (m : Option String) : (closeSpan c sid st m).nextId = c.nextId := by
  unfold closeSpan
  split
  · split <;> rfl
  · rfl

theorem closeSpan_of_none (c : Core) (sid : Nat) (st : TraceState)
    (m : Option String) (hf : findSpan c sid = none) :
    closeSpan c sid st m = c := by
  unfold closeSpan
  simp only [hf]

theorem closeSpan_of_closed (c : Core) (sid : Nat) (st : TraceState)
    (m : Option String) (s : Span) (hf : findSpan c sid = some s)
    (hc : s.endTime.isSome = true) : closeSpan c sid st m = c := by
  unfold closeSpan
  simp only [hf]
  rw [if_pos hc]

theorem findSpan_closeSpan_self (c : Core) (sid : Nat) (st : TraceState)
    (m : Option String) (s : Span) (hf : findSpan c sid = some s)
    (ho : s.endTime = none) :
    findSpan (closeSpan c sid st m) sid =
      some (closeSpanFields st m c.clock s) := by
  unfold closeSpan
  simp only [hf]
  have hn : s.endTime.isSome = false := by rw [ho]; rfl
  rw [if_neg (ne_true_of_eq_false hn)]
  simp only [findSpan]
  rw [find?_map_key (fun x => x.spanId == sid)
      (fun x => if x.spanId == sid then closeSpanFields st m c.clock x else x)
      (fun x => by simp only [closeBody_spanId]) c.spans]
  have hf2 : c.spans.find? (fun x => x.spanId == sid) = some s := hf
  rw [hf2]
  have hps0 := List.find?_some hf2
  have hps : (s.spanId == sid) = true := hps0
  show some (if s.spanId == sid then closeSpanFields st m c.clock s else s) =
    some (closeSpanFields st m c.clock s)
  rw [if_pos hps]

theorem findSpan_closeSpan_ne (c : Core) (x sid : Nat) (st : TraceState)
    (m : Option String) (hne : sid ≠ x) :
    findSpan (closeSpan c x st m) sid = findSpan c sid := by
  unfold closeSpan
  cases hf : findSpan c x with
  | none => rfl
  | some s =>
    simp only [hf]
    by_cases h : s.endTime.isSome = true
    · rw [if_pos h]
    · rw [if_neg h]
      simp only [findSpan]
      rw [find?_map_key (fun t => t.spanId == sid)
          (fun t => if t.spanId == x then closeSpanFields st m c.clock t else t)
          (fun t => by simp only [closeBody_spanId]) c.spans]
      cases hg : c.spans.find? (fun t => t.spanId == sid) with
      | none => rfl
      | some s2 =>
        have hps0 := List.find?_some hg
        have hps : (s2.spanId == sid) = true := hps0
        have hid : s2.spanId = sid := eq_of_beq hps
        show some (if s2.spanId == x then closeSpanFields st m c.clock s2 else s2) =
          some s2
        rw [if_neg (by rw [hid]; simp [hne])]

/-- C2: the trace state mapper is a total function into {SUCCESS, ERROR,
UNSET}: "Success" as a string, the canonical SUCCESS enum value and the
external OK status code all map to SUCCESS (and any string lowering to
"success" does); any string lowering to "error" maps to ERROR;
"Indeterminate" and every unrecognized string map to UNSET without raising;
and with no input the result is the declared default SUCCESS. -/
theorem state_mapping_total (s : String) :
    normalizeState (some (.str "Success")) = TraceState.SUCCESS ∧
    normalizeState (some (.enum .SUCCESS)) = TraceState.SUCCESS ∧
    normalizeState (some (.code .OK)) = TraceState.SUCCESS ∧
    (lowerString s = "success" →
      normalizeState (some (.str s)) = TraceState.SUCCESS) ∧
    (lowerString s = "error" →
      normalizeState (some (.str s)) = TraceState.ERROR) ∧
    normalizeState (some (.str "Indeterminate")) = TraceState.UNSET ∧
    (lowerString s ≠ "success" → lowerString s ≠ "error" →
      normalizeState (some (.str s)) = TraceState.UNSET) ∧
    normalizeState none = TraceState.SUCCESS := by
  refine ⟨by decide, rfl, rfl, ?_, ?_, by decide, ?_, rfl⟩
  · intro h
    simp [normalizeState, h]
  · intro h
    simp [normalizeState, h]
  · intro h1 h2
    simp [normalizeState, h1, h2]

theorem state_mapping_total_witness :
    normalizeState (some (.str "ERROR")) = TraceState.ERROR ∧
    normalizeState (some (.str "gibberish")) = TraceState.UNSET ∧
    normalizeState none = TraceState.SUCCESS :=
  ⟨(state_mapping_total "ERROR").2.2.2.2.1 (by decide),
   (state_mapping_total "gibberish").2.2.2.2.2.2.1 (by decide) (by decide),
   (state_mapping_total "x").2.2.2.2.2.2.2⟩

/-- C5: ending is idempotent.  Closing a span twice (with any status and
message the second time) produces exactly the same core state as closing it
once — so no error and no duplicate export — and likewise ending a trace
handle twice is the same as ending it once (the second end of an
already-ended handle is a silent no-op). -/
theorem close_idempotent (c : Core) (sid h : Nat) (st st2 : TraceState)
    (m m2 : Option String) :
    closeSpan (closeSpan c sid st m) sid st2 m2 = closeSpan c sid st m ∧
    endTraceOne (endTraceOne c h st) h st2 = endTraceOne c h st := by
  constructor
  · cases hf : findSpan c sid with
    | none =>
      rw [closeSpan_of_none c sid st m hf]
      exact closeSpan_of_none c sid st2 m2 hf
    | some s =>
      by_cases hc : s.endTime.isSome = true
      · rw [closeSpan_of_closed c sid st m s hf hc]
        exact closeSpan_of_closed c sid st2 m2 s hf hc
      · have ho : s.endTime = none := by
          cases he : s.endTime
          · rfl
          · exact absurd (by rw [he]; rfl) hc
        exact closeSpan_of_closed (closeSpan c sid st m) sid st2 m2
          (closeSpanFields st m c.clock s)
          (findSpan_closeSpan_self c sid st m s hf ho) rfl
  · unfold endTraceOne
    by_cases hmem : h ∈ c.registry
    · rw [if_pos hmem]
      rw [if_neg ?hnot]
      case hnot =>
        intro hmem2
        have := List.mem_filter.mp hmem2
        simp at this
    · rw [if_neg hmem, if_neg hmem]

theorem dropWhile_isSuffix (p : (Nat × Nat) → Bool) (l : List (Nat × Nat)) :
    l.dropWhile p <:+ l := by
  induction l with
  | nil => exact List.suffix_rfl
  | cons a l ih =>
    rw [List.dropWhile_cons]
    by_cases h : p a = true
    · rw [if_pos h]
      exact ih.trans (List.suffix_cons a l)
    · rw [if_neg h]

/-- C9: instrumentation-internal errors are absorbed rather than propagated.
A context pop with a stale or mismatched token is a total operation that
restores the stack best-effort to an ancestor context (the result is always a
suffix of the stack, and a matching token restores exactly the context below
it); an end on an unknown trace handle is a silent no-op; and attribute
serialization is a total function that records a non-serializable value as a
type placeholder instead of raising. -/
theorem internal_errors_absorbed (c : Core) (h : Nat) (st : TraceState)
    (stack rest : List (Nat × Nat)) (p tok : Nat) (ty : String) :
    (ctxPop stack tok).1 <:+ stack ∧
    ctxPop ((p, tok) :: rest) tok = (rest, false) ∧
    (h ∉ c.registry → endTraceOne c h st = c) ∧
    serializeAttr (AttrValue.unserializable ty) =
      "<non-serializable: " ++ ty ++ ">" := by
  refine ⟨?_, ?_, ?_, rfl⟩
  · cases stack with
    | nil => exact List.suffix_rfl
    | cons e rest2 =>
      simp only [ctxPop]
      by_cases h1 : e.2 = tok
      · rw [if_pos h1]
        exact List.suffix_cons e rest2
      · rw [if_neg h1]
        by_cases h2 : rest2.any (fun x => x.2 == tok) = true
        · rw [if_pos h2]
          exact ((List.tail_suffix _).trans
            (dropWhile_isSuffix _ rest2)).trans (List.suffix_cons e rest2)
        · rw [if_neg h2]
          exact List.suffix_cons e rest2
  · simp only [ctxPop]
    simp
  · intro hmem
    unfold endTraceOne
    rw [if_neg hmem]

theorem internal_errors_absorbed_witness :
    ((ctxPop [(5, 1), (3, 0)] 7).1 <:+ [(5, 1), (3, 0)]) ∧
    ctxPop [(9, 4), (3, 0)] 4 = ([(3, 0)], false) ∧
    endTraceOne Core.init 42 TraceState.ERROR = Core.init ∧
    serializeAttr (AttrValue.unserializable "Thread") =
      "<non-serializable: " ++ "Thread" ++ ">" :=
  ⟨(internal_errors_absorbed Core.init 42 TraceState.ERROR
      [(5, 1), (3, 0)] [(3, 0)] 9 4 "Thread").1,
   (internal_errors_absorbed Core.init 42 TraceState.ERROR
      [(5, 1), (3, 0)] [(3, 0)] 9 4 "Thread").2.1,
   (internal_errors_absorbed Core.init 42 TraceState.ERROR
      [(5, 1), (3, 0)] [(3, 0)] 9 4 "Thread").2.2.1 (by decide),
   (internal_errors_absorbed Core.init 42 TraceState.ERROR
      [(5, 1), (3, 0)] [(3, 0)] 9 4 "Thread").2.2.2⟩

theorem findSpan_openChild (c : Core) (k : SpanKind) (nm : String) :
    findSpan (openChild c k nm).2.2 c.nextId = some
      { spanId := c.nextId, traceId := parentTraceId c,
        parentSpanId := currentId c, kind := k, name := nm,
        status := .UNSET, statusMessage := none,
        startTime := c.clock, endTime := none } := by
  show List.find? (fun s => s.spanId == c.nextId)
      ({ spanId := c.nextId, traceId := parentTraceId c,
         parentSpanId := currentId c, kind := k, name := nm,
         status := .UNSET, statusMessage := none,
         startTime := c.clock, endTime := none } :: c.spans) = _
  rw [List.find?_cons_of_pos _ (by simp)]

theorem findSpan_popCtx (c : Core) (tok sid : Nat) :
    findSpan (popCtx c tok) sid = findSpan c sid := rfl

/-- C3: exception transparency.  If a wrapped callable raises an error, the
caller of the wrapped callable receives exactly that error (same type and
message, carried unchanged), and the span opened for that invocation is
closed with status ERROR and a status message equal to the stringified
error. -/
theorem exception_transparency (α : Type) (c : Core) (k : SpanKind)
    (nm : String) (e : Err) :
    (wrapSync α c k nm (Except.error e)).1 = Except.error e ∧
    ∃ s, findSpan (wrapSync α c k nm (Except.error e)).2 c.nextId = some s ∧
      s.status = TraceState.ERROR ∧
      s.statusMessage = some (errToString e) ∧
      s.endTime.isSome = true := by
  refine ⟨rfl, ?_⟩
  have hsp := findSpan_openChild c k nm
  have hcl := findSpan_closeSpan_self (openChild c k nm).2.2 c.nextId
    TraceState.ERROR (some (errToString e)) _ hsp rfl
  exact ⟨_, hcl, rfl, rfl, rfl⟩

theorem findSpan_startTrace (c : Core) (nm : String) :
    findSpan (startTrace c nm).2 c.nextId = some
      { spanId := c.nextId, traceId := c.nextId, parentSpanId := none,
        kind := .SESSION, name := nm, status := .UNSET, statusMessage := none,
        startTime := c.clock, endTime := none } := by
  show List.find? (fun s => s.spanId == c.nextId)
      ({ spanId := c.nextId, traceId := c.nextId, parentSpanId := none,
         kind := .SESSION, name := nm, status := .UNSET, statusMessage := none,
         startTime := c.clock, endTime := none } :: c.spans) = _
  rw [List.find?_cons_of_pos _ (by simp)]

theorem endTraceOne_fresh (c : Core) (nm : String) (st : TraceState) :
    rootEnded (endTraceOne (startTrace c nm).2 c.nextId st) c.nextId st := by
  have hmem : c.nextId ∈ (startTrace c nm).2.registry :=
    List.mem_cons_self _ _
  unfold endTraceOne
  rw [if_pos hmem]
  constructor
  · intro hmem2
    have h2 := (List.mem_filter.mp hmem2).2
    simp at h2
  · have hcl := findSpan_closeSpan_self (startTrace c nm).2 c.nextId st none _
      (findSpan_startTrace c nm) rfl
    exact ⟨_, hcl, rfl, rfl⟩

/-- C4: a trace handle used as a scoped-acquisition (context-manager)
construct performs start_trace on entry and on every exit path ends the
trace — with state SUCCESS when the scope body completes normally and
state ERROR when an error propagates out (and is re-raised to the caller);
in both cases the trace is released: its root span is closed and it is no
longer registered as open. -/
theorem trace_scope_release (α : Type) (c : Core) (nm : String) (v : α)
    (e : Err) :
    (withTrace α c nm (Except.ok v)).1 = Except.ok v ∧
    rootEnded (withTrace α c nm (Except.ok v)).2 c.nextId TraceState.SUCCESS ∧
    (withTrace α c nm (Except.error e)).1 = Except.error e ∧
    rootEnded (withTrace α c nm (Except.error e)).2 c.nextId TraceState.ERROR :=
  ⟨rfl, endTraceOne_fresh c nm TraceState.SUCCESS, rfl,
    endTraceOne_fresh c nm TraceState.ERROR⟩

/-- C8: concurrent trace isolation (frame condition).  Ending one trace
leaves every span that belongs to a different trace completely unchanged —
in particular its status, end time, and open/closed state are the same
before and after the end. -/
theorem concurrent_trace_isolation (c : Core) (h1 sid : Nat) (st : TraceState)
    (r1 s : Span) (hr1 : findSpan c h1 = some r1)
    (hs : findSpan c sid = some s) (hne : s.traceId ≠ r1.traceId) :
    findSpan (endTraceOne c h1 st) sid = some s := by
  have hid : sid ≠ h1 := by
    intro hEq
    rw [hEq, hr1] at hs
    injection hs with h2
    exact hne (by rw [h2])
  unfold endTraceOne
  by_cases hmem : h1 ∈ c.registry
  · rw [if_pos hmem]
    show findSpan (closeSpan c h1 st none) sid = some s
    rw [findSpan_closeSpan_ne c h1 sid st none hid]
    exact hs
  · rw [if_neg hmem]
    exact hs

theorem concurrent_trace_isolation_witness :
    findSpan (endTraceOne coreTwo 0 TraceState.ERROR) 1 = some
      { spanId := 1, traceId := 1, parentSpanId := none, kind := .SESSION,
        name := "workflow_2", status := .UNSET, statusMessage := none,
        startTime := 1, endTime := none } :=
  concurrent_trace_isolation coreTwo 0 1 TraceState.ERROR
    { spanId := 0, traceId := 0, parentSpanId := none, kind := .SESSION,
      name := "workflow_1", status := .UNSET, statusMessage := none,
      startTime := 0, endTime := none }
    { spanId := 1, traceId := 1, parentSpanId := none, kind := .SESSION,
      name := "workflow_2", status := .UNSET, statusMessage := none,
      startTime := 1, endTime := none }
    (by decide) (by decide) (by decide)

/-- C10: a trace started via start_trace while another trace is already open
in the same flow is an independent parallel trace, not a child of the
enclosing one — its root span's parent-span-id is null and its trace id
differs from the enclosing trace's trace id, so nested start_trace scopes
never create a parent-child span relationship between the two traces. -/
theorem parallel_traces_independent (c : Core) (nm : String) (h1 : Nat)
    (r1 : Span) (hok : SpansOK c) (_hmem : h1 ∈ c.registry)
    (hr : findSpan c h1 = some r1) :
    ∃ r2, findSpan (startTrace c nm).2 (startTrace c nm).1 = some r2 ∧
      r2.parentSpanId = none ∧ r2.traceId ≠ r1.traceId := by
  refine ⟨_, findSpan_startTrace c nm, rfl, ?_⟩
  have hr2 : c.spans.find? (fun x => x.spanId == h1) = some r1 := hr
  have hmem2 : r1 ∈ c.spans := List.mem_of_find?_eq_some hr2
  have hlt := (hok r1 hmem2).2
  exact ne_of_gt hlt

theorem parallel_traces_independent_witness :
    ∃ r2, findSpan (startTrace coreOne "inner").2
        (startTrace coreOne "inner").1 = some r2 ∧
      r2.parentSpanId = none ∧ r2.traceId ≠ 0 :=
  parallel_traces_independent coreOne "inner" 0
    { spanId := 0, traceId := 0, parentSpanId := none, kind := .SESSION,
      name := "session", status := .UNSET, statusMessage := none,
      startTime := 0, endTime := none }
    (by decide) (by decide) (by decide)

theorem foldl_close_preserved (st : TraceState) (hs : List Nat) :
    ∀ (c : Core) (h : Nat) (s : Span), findSpan c h = some s →
      s.endTime.isSome = true →
      findSpan (hs.foldl (fun acc x => closeSpan acc x st none) c) h = some s := by
  induction hs with
  | nil =>
    intro c h s hf _
    exact hf
  | cons x rest ih =>
    intro c h s hf hcl
    refine ih (closeSpan c x st none) h s ?_ hcl
    by_cases hx : h = x
    · subst hx
      rw [closeSpan_of_closed c h st none s hf hcl]
      exact hf
    · rw [findSpan_closeSpan_ne c x h st none hx]
      exact hf

theorem foldl_close_closes (st : TraceState) (hs : List Nat) :
    ∀ (c : Core) (h : Nat) (s : Span), h ∈ hs → findSpan c h = some s →
      s.endTime = none →
      ∃ s2, findSpan (hs.foldl (fun acc x => closeSpan acc x st none) c) h
          = some s2 ∧ s2.endTime.isSome = true ∧ s2.status = st := by
  induction hs with
  | nil =>
    intro c h s hmem
    exact absurd hmem (List.not_mem_nil h)
  | cons x rest ih =>
    intro c h s hmem hf ho
    by_cases hx : h = x
    · subst hx
      have hcl := findSpan_closeSpan_self c h st none s hf ho
      exact ⟨_, foldl_close_preserved st rest _ h _ hcl rfl, rfl, rfl⟩
    · have hf2 : findSpan (closeSpan c x st none) h = some s := by
        rw [findSpan_closeSpan_ne c x h st none hx]
        exact hf
      have hmem2 : h ∈ rest := by
        cases List.mem_cons.mp hmem with
        | inl hEq => exact absurd hEq hx
        | inr hm => exact hm
      exact ih (closeSpan c x st none) h s hmem2 hf2 ho

/-- C6: calling end-trace with no trace handle ends every currently-open
trace with the given state: afterwards the trace registry is empty and the
root span of every trace that was open is closed with that state — no trace
is left half-closed (registry entry without a closed root or vice versa). -/
theorem end_all_traces (c : Core) (st : TraceState) :
    (endTrace c none st).registry = [] ∧
    ∀ h ∈ c.registry, ∀ s, findSpan c h = some s → s.endTime = none →
      ∃ s2, findSpan (endTrace c none st) h = some s2 ∧
        s2.endTime.isSome = true ∧ s2.status = st := by
  refine ⟨rfl, ?_⟩
  intro h hmem s hf ho
  exact foldl_close_closes st c.registry c h s hmem hf ho

theorem end_all_traces_witness :
    (endTrace coreTwo none TraceState.ERROR).registry = [] ∧
    (∃ s2, findSpan (endTrace coreTwo none TraceState.ERROR) 0 = some s2 ∧
      s2.endTime.isSome = true ∧ s2.status = TraceState.ERROR) ∧
    (∃ s2, findSpan (endTrace coreTwo none TraceState.ERROR) 1 = some s2 ∧
      s2.endTime.isSome = true ∧ s2.status = TraceState.ERROR) :=
  ⟨(end_all_traces coreTwo TraceState.ERROR).1,
   (end_all_traces coreTwo TraceState.ERROR).2 0 (by decide)
     { spanId := 0, traceId := 0, parentSpanId := none, kind := .SESSION,
       name := "workflow_1", status := .UNSET, statusMessage := none,
       startTime := 0, endTime := none } (by decide) rfl,
   (end_all_traces coreTwo TraceState.ERROR).2 1 (by decide)
     { spanId := 1, traceId := 1, parentSpanId := none, kind := .SESSION,
       name := "workflow_2", status := .UNSET, statusMessage := none,
       startTime := 1, endTime := none } (by decide) rfl⟩

theorem genStep_finished (c : Core) (g : GenState) (hfin : g.finished = true) :
    genStep c g = (c, g) := by
  unfold genStep
  rw [if_pos hfin]

theorem genSteps_finished (c : Core) (g : GenState) (n : Nat)
    (hfin : g.finished = true) : genSteps c g n = (c, g) := by
  induction n with
  | zero => rfl
  | succ n ih =>
    show genSteps (genStep c g).1 (genStep c g).2 n = (c, g)
    rw [genStep_finished c g hfin]
    exact ih

theorem genStep_yield (c : Core) (g : GenState) (hfin : g.finished = false)
    (hlt : g.yielded < g.total) :
    genStep c g = (c, { g with yielded := g.yielded + 1 }) := by
  unfold genStep
  rw [if_neg (ne_true_of_eq_false hfin), if_pos hlt]

theorem genStep_exhausted (c : Core) (g : GenState)
    (hfin : g.finished = false) (hy : ¬ g.yielded < g.total) :
    genStep c g =
      (closeSpan c g.sid .SUCCESS none, { g with finished := true }) := by
  unfold genStep
  rw [if_neg (ne_true_of_eq_false hfin), if_neg hy]

theorem genSteps_run (c : Core) (n : Nat) :
    ∀ (g : GenState), g.finished = false → g.yielded + n ≤ g.total →
      genSteps c g n = (c, { g with yielded := g.yielded + n }) := by
  induction n with
  | zero =>
    intro g _ _
    rfl
  | succ n ih =>
    intro g hfin hle
    have hlt : g.yielded < g.total := by omega
    show genSteps (genStep c g).1 (genStep c g).2 n = _
    rw [genStep_yield c g hfin hlt]
    have h2 := ih { g with yielded := g.yielded + 1 } hfin (by
      show g.yielded + 1 + n ≤ g.total
      omega)
    rw [h2]
    have h3 : g.yielded + 1 + n = g.yielded + (n + 1) := by omega
    simp only [h3]

theorem genSteps_add (a : Nat) : ∀ (b : Nat) (c : Core) (g : GenState),
    genSteps c g (a + b) =
      genSteps (genSteps c g a).1 (genSteps c g a).2 b := by
  induction a with
  | zero =>
    intro b c g
    rw [Nat.zero_add]
    rfl
  | succ a ih =>
    intro b c g
    rw [Nat.succ_add]
    show genSteps (genStep c g).1 (genStep c g).2 (a + b) = _
    rw [ih b (genStep c g).1 (genStep c g).2]
    rfl

theorem genScenario_general (c0 : Core) (g0 : GenState) (n : Nat) (sp : Span)
    (hfin : g0.finished = false) (hy : g0.yielded ≤ g0.total)
    (hsp : findSpan c0 g0.sid = some sp) (hopen : sp.endTime = none) :
    (g0.yielded + n ≤ g0.total →
      ∃ s, findSpan (genClose (genSteps c0 g0 n).1 (genSteps c0 g0 n).2).1
          g0.sid = some s ∧ s.endTime.isSome = true ∧
        s.status = TraceState.ERROR) ∧
    (g0.total < g0.yielded + n →
      ∃ s, findSpan (genClose (genSteps c0 g0 n).1 (genSteps c0 g0 n).2).1
          g0.sid = some s ∧ s.endTime.isSome = true ∧
        s.status = TraceState.SUCCESS) := by
  constructor
  · intro hle
    rw [genSteps_run c0 n g0 hfin hle]
    unfold genClose
    rw [if_neg (ne_true_of_eq_false hfin)]
    have hcl := findSpan_closeSpan_self c0 g0.sid TraceState.ERROR
      (some "generator closed before exhaustion") sp hsp hopen
    exact ⟨_, hcl, rfl, rfl⟩
  · intro hlt
    have hm : g0.total - g0.yielded + (1 + (g0.yielded + n - g0.total - 1)) = n := by
      omega
    rw [← hm, genSteps_add (g0.total - g0.yielded)
      (1 + (g0.yielded + n - g0.total - 1)) c0 g0]
    rw [genSteps_run c0 (g0.total - g0.yielded) g0 hfin (by omega)]
    rw [Nat.add_comm 1 (g0.yielded + n - g0.total - 1)]
    show ∃ s, findSpan (genClose (genSteps (genStep c0 _).1 (genStep c0 _).2
        (g0.yielded + n - g0.total - 1)).1 (genSteps (genStep c0 _).1
        (genStep c0 _).2 (g0.yielded + n - g0.total - 1)).2).1 g0.sid
        = some s ∧ s.endTime.isSome = true ∧ s.status = TraceState.SUCCESS
    rw [genStep_exhausted c0 { g0 with yielded := g0.yielded + (g0.total - g0.yielded) }
      hfin (by show ¬ g0.yielded + (g0.total - g0.yielded) < g0.total; omega)]
    rw [genSteps_finished _ _ _ rfl]
    unfold genClose
    rw [if_pos rfl]
    have hcl := findSpan_closeSpan_self c0 g0.sid TraceState.SUCCESS none
      sp hsp hopen
    exact ⟨_, hcl, rfl, rfl⟩

/-- C7: generator leak-freedom.  A wrapped generator that is resumed some
number of times and then closed — whether abandoned before exhaustion or run
past exhaustion — never leaves its span open: the span is always closed;
early closure is treated as an error exit (the span status is ERROR), while
a generator whose exhaustion was observed has its span closed with
SUCCESS. -/
theorem generator_leak_freedom (c : Core) (k : SpanKind) (nm : String)
    (total n : Nat) :
    (n ≤ total → ∃ s, findSpan (genScenario c k nm total n).1 c.nextId
        = some s ∧ s.endTime.isSome = true ∧
      s.status = TraceState.ERROR) ∧
    (total < n → ∃ s, findSpan (genScenario c k nm total n).1 c.nextId
        = some s ∧ s.endTime.isSome = true ∧
      s.status = TraceState.SUCCESS) := by
  have h := genScenario_general (genOpen c k nm total).2
    (genOpen c k nm total).1 n
    { spanId := c.nextId, traceId := parentTraceId c,
      parentSpanId := currentId c, kind := k, name := nm,
      status := .UNSET, statusMessage := none,
      startTime := c.clock, endTime := none }
    rfl (by show (0 : Nat) ≤ total; omega) (findSpan_openChild c k nm) rfl
  constructor
  · intro hle
    exact h.1 (by show 0 + n ≤ total; omega)
  · intro hlt
    exact h.2 (by show total < 0 + n; omega)

theorem generator_leak_freedom_witness :
    (∃ s, findSpan (genScenario Core.init .TOOL "gen" 3 1).1 0 = some s ∧
      s.endTime.isSome = true ∧ s.status = TraceState.ERROR) ∧
    (∃ s, findSpan (genScenario Core.init .TOOL "gen" 3 5).1 0 = some s ∧
      s.endTime.isSome = true ∧ s.status = TraceState.SUCCESS) :=
  ⟨(generator_leak_freedom Core.init .TOOL "gen" 3 1).1 (by decide),
   (generator_leak_freedom Core.init .TOOL "gen" 3 5).2 (by decide)⟩

theorem find?_append_left_none (p : Span → Bool) (new old : List Span)
    (h : new.find? p = none) : (new ++ old).find? p = old.find? p := by
  induction new with
  | nil => rfl
  | cons a l ih =>
    have hpa : p a = false := by
      cases hh : p a
      · rfl
      · rw [List.find?_cons_of_pos _ hh] at h
        exact Option.noConfusion h
    rw [List.cons_append, List.find?_cons_of_neg _ (ne_true_of_eq_false hpa)]
    apply ih
    rw [List.find?_cons_of_neg _ (ne_true_of_eq_false hpa)] at h
    exact h

theorem findSpan_extends (c c2 : Core) (new : List Span)
    (hsp : c2.spans = new ++ c.spans)
    (hnew : ∀ s ∈ new, c.nextId ≤ s.spanId) (sid : Nat)
    (hlt : sid < c.nextId) : findSpan c2 sid = findSpan c sid := by
  unfold findSpan
  rw [hsp]
  apply find?_append_left_none
  rw [List.find?_eq_none]
  intro x hx
  simp only [beq_iff_eq]
  intro hEq
  have h2 := hnew x hx
  omega

theorem map_close_id (sid : Nat) (st : TraceState) (m : Option String)
    (t2 : Nat) (l : List Span) (h : ∀ s ∈ l, s.spanId ≠ sid) :
    l.map (fun x => if x.spanId == sid then closeSpanFields st m t2 x else x)
      = l := by
  induction l with
  | nil => rfl
  | cons a l ih =>
    rw [List.map_cons]
    have hne : (a.spanId == sid) = false :=
      beq_eq_false_iff_ne.mpr (h a (List.mem_cons_self a l))
    rw [if_neg (ne_true_of_eq_false hne)]
    rw [ih (fun s hs => h s (List.mem_cons_of_mem a hs))]

theorem parentTraceId_le (c : Core) (hS : SpansOK c) :
    parentTraceId c ≤ c.nextId := by
  unfold parentTraceId
  cases hcur : currentId c with
  | none => simp
  | some p =>
    simp only [Option.some_bind]
    cases hf : findSpan c p with
    | none => simp [hf]
    | some s =>
      simp only [hf, Option.map_some', Option.getD_some]
      have hf2 : c.spans.find? (fun x => x.spanId == p) = some s := hf
      have hmem : s ∈ c.spans := List.mem_of_find?_eq_some hf2
      exact Nat.le_of_lt (hS s hmem).2

theorem wrapExtends_stable (c c1 : Core) (hC : CtxOK c)
    (h1 : WrapExtends c c1) (hne : c.ctx ≠ []) :
    currentId c1 = currentId c ∧ parentTraceId c1 = parentTraceId c := by
  obtain ⟨hn, hctx, new, hsp, hprops⟩ := h1
  have hcur : currentId c1 = currentId c := by
    unfold currentId
    rw [hctx]
  refine ⟨hcur, ?_⟩
  cases hhead : c.ctx with
  | nil => exact absurd hhead hne
  | cons e rest =>
    have hcure : currentId c = some e.1 := by
      unfold currentId
      rw [hhead]
      rfl
    have hmem : e ∈ c.ctx := by
      rw [hhead]
      exact List.mem_cons_self e rest
    have he := hC e hmem
    cases hf : findSpan c e.1 with
    | none =>
      rw [hf] at he
      exact absurd he.2 (by simp)
    | some sp0 =>
      have hf1 : findSpan c1 e.1 = findSpan c e.1 :=
        findSpan_extends c c1 new hsp (fun s hs => (hprops s hs).1.1) e.1 he.1
      unfold parentTraceId
      rw [hcur, hcure]
      simp only [Option.some_bind]
      rw [hf1, hf]
      simp

theorem wrapExtends_wf (c c1 : Core) (hS : SpansOK c) (hC : CtxOK c)
    (h1 : WrapExtends c c1) : SpansOK c1 ∧ CtxOK c1 := by
  obtain ⟨hn, hctx, new, hsp, hprops⟩ := h1
  have hptle := parentTraceId_le c hS
  constructor
  · intro s hmem
    rw [hsp] at hmem
    cases List.mem_append.mp hmem with
    | inl hin =>
      have hp := hprops s hin
      have hb1 := hp.1.1
      have hb2 := hp.1.2
      have ht : s.traceId = parentTraceId c := hp.2.1
      exact ⟨hb2, by omega⟩
    | inr hold =>
      have h2 := hS s hold
      exact ⟨Nat.lt_of_lt_of_le h2.1 hn, Nat.lt_of_lt_of_le h2.2 hn⟩
  · intro e hmem
    rw [hctx] at hmem
    have he := hC e hmem
    have hf1 : findSpan c1 e.1 = findSpan c e.1 :=
      findSpan_extends c c1 new hsp (fun s hs => (hprops s hs).1.1) e.1 he.1
    exact ⟨Nat.lt_of_lt_of_le he.1 hn, by rw [hf1]; exact he.2⟩

theorem wrapExtends_trans (c c1 c2 : Core) (hC : CtxOK c)
    (hne : c.ctx ≠ []) (h1 : WrapExtends c c1) (h2 : WrapExtends c1 c2) :
    WrapExtends c c2 := by
  have hstab := wrapExtends_stable c c1 hC h1 hne
  obtain ⟨hn1, hctx1, new1, hsp1, hprops1⟩ := h1
  obtain ⟨hn2, hctx2, new2, hsp2, hprops2⟩ := h2
  refine ⟨Nat.le_trans hn1 hn2, by rw [hctx2, hctx1], new2 ++ new1, ?_, ?_⟩
  · rw [hsp2, hsp1, List.append_assoc]
  · intro s hmem
    cases List.mem_append.mp hmem with
    | inl h2in =>
      have hp := hprops2 s h2in
      refine ⟨⟨Nat.le_trans hn1 hp.1.1, hp.1.2⟩, ?_, ?_⟩
      · rw [hp.2.1, hstab.2]
      · cases hp.2.2 with
        | inl hcur => exact Or.inl (by rw [hcur, hstab.1])
        | inr hq =>
          obtain ⟨q, hqmem, hqeq⟩ := hq
          refine Or.inr ⟨q, ?_, hqeq⟩
          rw [List.map_append]
          exact List.mem_append_left _ hqmem
    | inr h1in =>
      have hp := hprops1 s h1in
      refine ⟨⟨hp.1.1, Nat.lt_of_lt_of_le hp.1.2 hn2⟩, hp.2.1, ?_⟩
      cases hp.2.2 with
      | inl hcur => exact Or.inl hcur
      | inr hq =>
        obtain ⟨q, hqmem, hqeq⟩ := hq
        refine Or.inr ⟨q, ?_, hqeq⟩
        rw [List.map_append]
        exact List.mem_append_right _ hqmem

theorem findSpan_openChild_ne (c : Core) (k : SpanKind) (nm : String)
    (sid : Nat) (h : sid ≠ c.nextId) :
    findSpan (openChild c k nm).2.2 sid = findSpan c sid := by
  show List.find? (fun s => s.spanId == sid)
      ({ spanId := c.nextId, traceId := parentTraceId c,
         parentSpanId := currentId c, kind := k, name := nm,
         status := .UNSET, statusMessage := none,
         startTime := c.clock, endTime := none } :: c.spans) = findSpan c sid
  rw [List.find?_cons_of_neg _ (by
    simp only [beq_iff_eq]
    exact fun hEq => h hEq.symm)]
  rfl

theorem parentTraceId_openChild (c : Core) (k : SpanKind) (nm : String) :
    parentTraceId (openChild c k nm).2.2 = parentTraceId c := by
  unfold parentTraceId
  rw [show currentId (openChild c k nm).2.2 = some c.nextId from rfl]
  simp only [Option.some_bind]
  rw [findSpan_openChild c k nm]
  simp only [Option.map_some', Option.getD_some]
  rfl

theorem closeSpan_spans_open (c : Core) (sid : Nat) (st : TraceState)
    (m : Option String) (s : Span) (hf : findSpan c sid = some s)
    (ho : s.endTime = none) :
    (closeSpan c sid st m).spans = c.spans.map
      (fun x => if x.spanId == sid then closeSpanFields st m c.clock x
        else x) := by
  unfold closeSpan
  simp only [hf]
  rw [if_neg (ne_true_of_eq_false (by rw [ho]; rfl))]

theorem openChild_SpansOK (c : Core) (k : SpanKind) (nm : String)
    (hS : SpansOK c) : SpansOK (openChild c k nm).2.2 := by
  intro s hmem
  cases List.mem_cons.mp hmem with
  | inl hEq =>
    subst hEq
    exact ⟨Nat.lt_succ_self _, Nat.lt_succ_of_le (parentTraceId_le c hS)⟩
  | inr hold =>
    have h2 := hS s hold
    exact ⟨Nat.lt_succ_of_lt h2.1, Nat.lt_succ_of_lt h2.2⟩

theorem openChild_CtxOK (c : Core) (k : SpanKind) (nm : String)
    (hC : CtxOK c) : CtxOK (openChild c k nm).2.2 := by
  intro e hmem
  cases List.mem_cons.mp hmem with
  | inl hEq =>
    subst hEq
    refine ⟨Nat.lt_succ_self _, ?_⟩
    show (findSpan (openChild c k nm).2.2 c.nextId).isSome = true
    rw [findSpan_openChild c k nm]
    rfl
  | inr hold =>
    have he := hC e hold
    refine ⟨Nat.lt_succ_of_lt he.1, ?_⟩
    rw [findSpan_openChild_ne c k nm e.1 (Nat.ne_of_lt he.1)]
    exact he.2

theorem runCall_body_extends (c : Core) (k : SpanKind) (nm : String)
    (cMid : Core) (hS : SpansOK c)
    (hMid : WrapExtends (openChild c k nm).2.2 cMid) :
    WrapExtends c (popCtx (closeSpan cMid c.nextId TraceState.SUCCESS none)
      c.nextTok) := by
  obtain ⟨hn2, hctx2, new2, hspans2, hprops2⟩ := hMid
  have hn2a : c.nextId + 1 ≤ cMid.nextId := hn2
  have hbound : ∀ s ∈ new2, c.nextId + 1 ≤ s.spanId :=
    fun s hs => (hprops2 s hs).1.1
  have hfmid : findSpan cMid c.nextId = some
      { spanId := c.nextId, traceId := parentTraceId c,
        parentSpanId := currentId c, kind := k, name := nm,
        status := .UNSET, statusMessage := none,
        startTime := c.clock, endTime := none } := by
    rw [findSpan_extends (openChild c k nm).2.2 cMid new2 hspans2
      (fun s hs => (hprops2 s hs).1.1) c.nextId (Nat.lt_succ_self _)]
    exact findSpan_openChild c k nm
  have hptmid : parentTraceId (openChild c k nm).2.2 = parentTraceId c :=
    parentTraceId_openChild c k nm
  refine ⟨?_, ?_, new2 ++ [closeSpanFields TraceState.SUCCESS none cMid.clock
      { spanId := c.nextId, traceId := parentTraceId c,
        parentSpanId := currentId c, kind := k, name := nm,
        status := .UNSET, statusMessage := none,
        startTime := c.clock, endTime := none }], ?_, ?_⟩
  · show c.nextId ≤ (closeSpan cMid c.nextId TraceState.SUCCESS none).nextId
    rw [closeSpan_nextId]
    omega
  · show (ctxPop (closeSpan cMid c.nextId TraceState.SUCCESS none).ctx
      c.nextTok).1 = c.ctx
    rw [closeSpan_ctx]
    rw [show cMid.ctx = (c.nextId, c.nextTok) :: c.ctx from hctx2]
    simp [ctxPop]
  · show (closeSpan cMid c.nextId TraceState.SUCCESS none).spans = _
    rw [closeSpan_spans_open cMid c.nextId TraceState.SUCCESS none _ hfmid rfl]
    rw [show cMid.spans = new2 ++
      ({ spanId := c.nextId, traceId := parentTraceId c,
         parentSpanId := currentId c, kind := k, name := nm,
         status := .UNSET, statusMessage := none,
         startTime := c.clock, endTime := none } :: c.spans) from hspans2]
    rw [List.map_append, List.map_cons]
    rw [map_close_id c.nextId TraceState.SUCCESS none cMid.clock new2
      (fun s hs => by have h2 := hbound s hs; omega)]
    rw [if_pos (by simp)]
    rw [map_close_id c.nextId TraceState.SUCCESS none cMid.clock c.spans
      (fun s hs => Nat.ne_of_lt (hS s hs).1)]
    rw [List.append_cons]
  · intro s hmem
    cases List.mem_append.mp hmem with
    | inl hin =>
      have hp := hprops2 s hin
      have hlow : c.nextId + 1 ≤ s.spanId := hp.1.1
      refine ⟨⟨by omega, ?_⟩, ?_, ?_⟩
      · show s.spanId < (closeSpan cMid c.nextId TraceState.SUCCESS
          none).nextId
        rw [closeSpan_nextId]
        exact hp.1.2
      · rw [hp.2.1, hptmid]
      · cases hp.2.2 with
        | inl hcur =>
          refine Or.inr ⟨c.nextId, ?_, by rw [hcur]; rfl⟩
          rw [List.map_append]
          refine List.mem_append_right _ ?_
          simp [closeSpanFields]
        | inr hq =>
          obtain ⟨q, hqmem, hqeq⟩ := hq
          refine Or.inr ⟨q, ?_, hqeq⟩
          rw [List.map_append]
          exact List.mem_append_left _ hqmem
    | inr hin =>
      have hEq := List.eq_of_mem_singleton hin
      subst hEq
      refine ⟨⟨Nat.le_refl _, ?_⟩, rfl, Or.inl rfl⟩
      show c.nextId < (closeSpan cMid c.nextId TraceState.SUCCESS none).nextId
      rw [closeSpan_nextId]
      omega

mutual
theorem runCall_inv : ∀ (t : CallTree) (c : Core), SpansOK c → CtxOK c →
    WrapExtends c (runCall c t)
  | CallTree.node k nm children, c => by
    intro hS hC
    rw [runCall]
    exact runCall_body_extends c k nm
      (runCalls (openChild c k nm).2.2 children) hS
      (runCalls_inv children (openChild c k nm).2.2
        (openChild_SpansOK c k nm hS) (openChild_CtxOK c k nm hC)
        (List.cons_ne_nil _ _))
termination_by t => sizeOf t

theorem runCalls_inv : ∀ (ts : List CallTree) (c : Core), SpansOK c →
    CtxOK c → c.ctx ≠ [] → WrapExtends c (runCalls c ts)
  | [], c => by
    intro _ _ _
    rw [runCalls]
    exact ⟨Nat.le_refl _, rfl, [], by simp, by simp⟩
  | t :: ts2, c => by
    intro hS hC hne
    rw [runCalls]
    have h1 := runCall_inv t c hS hC
    have hwf := wrapExtends_wf c (runCall c t) hS hC h1
    have hne2 : (runCall c t).ctx ≠ [] := by
      rw [h1.2.1]
      exact hne
    have h2 := runCalls_inv ts2 (runCall c t) hwf.1 hwf.2 hne2
    exact wrapExtends_trans c (runCall c t) (runCalls (runCall c t) ts2)
      hC hne h1 h2
termination_by ts => sizeOf ts
end

theorem exception_transparency_witness :
    (wrapSync Nat Core.init .TOOL "risky"
        (Except.error ⟨"ValueError", "boom"⟩)).1
      = Except.error ⟨"ValueError", "boom"⟩ ∧
    ∃ s, findSpan (wrapSync Nat Core.init .TOOL "risky"
        (Except.error ⟨"ValueError", "boom"⟩)).2 Core.init.nextId = some s ∧
      s.status = TraceState.ERROR ∧
      s.statusMessage = some (errToString ⟨"ValueError", "boom"⟩) ∧
      s.endTime.isSome = true :=
  exception_transparency Nat Core.init .TOOL "risky" ⟨"ValueError", "boom"⟩

theorem trace_scope_release_witness :
    (withTrace Nat Core.init "wf" (Except.ok 7)).1 = Except.ok 7 ∧
    rootEnded (withTrace Nat Core.init "wf" (Except.ok 7)).2 Core.init.nextId
      TraceState.SUCCESS ∧
    (withTrace Nat Core.init "wf" (Except.error ⟨"E", "m"⟩)).1
      = Except.error ⟨"E", "m"⟩ ∧
    rootEnded (withTrace Nat Core.init "wf" (Except.error ⟨"E", "m"⟩)).2
      Core.init.nextId TraceState.ERROR :=
  trace_scope_release Nat Core.init "wf" 7 ⟨"E", "m"⟩

mutual
theorem callSpans_entries : ∀ (t : CallTree) (nid tid : Nat)
    (par : Option Nat),
    nid + 1 ≤ (callSpans nid tid par t).2 ∧
    ∀ x ∈ (callSpans nid tid par t).1,
      x.2.2 = tid ∧ nid ≤ x.1 ∧ x.1 < (callSpans nid tid par t).2
  | CallTree.node k nm children, nid, tid, par => by
    simp only [callSpans]
    have h := callSpansList_entries children (nid + 1) tid (some nid)
    refine ⟨h.1, ?_⟩
    intro x hx
    cases List.mem_cons.mp hx with
    | inl hEq =>
      subst hEq
      refine ⟨rfl, Nat.le_refl _, ?_⟩
      have h2 := h.1
      omega
    | inr hmem =>
      have h2 := h.2 x hmem
      have h3 := h2.2.1
      exact ⟨h2.1, by omega, h2.2.2⟩
termination_by t => sizeOf t

theorem callSpansList_entries : ∀ (ts : List CallTree) (nid tid : Nat)
    (par : Option Nat),
    nid ≤ (callSpansList nid tid par ts).2 ∧
    ∀ x ∈ (callSpansList nid tid par ts).1,
      x.2.2 = tid ∧ nid ≤ x.1 ∧ x.1 < (callSpansList nid tid par ts).2
  | [], nid, tid, par => by
    simp only [callSpansList]
    refine ⟨Nat.le_refl _, ?_⟩
    intro x hx
    exact absurd hx (List.not_mem_nil x)
  | t :: ts2, nid, tid, par => by
    simp only [callSpansList]
    have h1 := callSpans_entries t nid tid par
    have h2 := callSpansList_entries ts2 (callSpans nid tid par t).2 tid par
    have h1a := h1.1
    have h2a := h2.1
    refine ⟨by omega, ?_⟩
    intro x hx
    cases List.mem_append.mp hx with
    | inl hmem =>
      have h3 := h1.2 x hmem
      have h4 := h3.2.2
      exact ⟨h3.1, h3.2.1, by omega⟩
    | inr hmem =>
      have h3 := h2.2 x hmem
      have h4 := h3.2.1
      exact ⟨h3.1, by omega, h3.2.2⟩
termination_by ts => sizeOf ts
end

theorem runCall_spans_decomp (c : Core) (k : SpanKind) (nm : String)
    (cMid : Core) (new2 : List Span) (hS : SpansOK c)
    (hspans2 : cMid.spans = new2 ++ (openChild c k nm).2.2.spans)
    (hbound : ∀ s ∈ new2, c.nextId + 1 ≤ s.spanId) :
    (popCtx (closeSpan cMid c.nextId TraceState.SUCCESS none)
        c.nextTok).spans =
      (new2 ++ [closeSpanFields TraceState.SUCCESS none cMid.clock
        { spanId := c.nextId, traceId := parentTraceId c,
          parentSpanId := currentId c, kind := k, name := nm,
          status := .UNSET, statusMessage := none,
          startTime := c.clock, endTime := none }]) ++ c.spans := by
  have hfmid : findSpan cMid c.nextId = some
      { spanId := c.nextId, traceId := parentTraceId c,
        parentSpanId := currentId c, kind := k, name := nm,
        status := .UNSET, statusMessage := none,
        startTime := c.clock, endTime := none } := by
    rw [findSpan_extends (openChild c k nm).2.2 cMid new2 hspans2 hbound
      c.nextId (Nat.lt_succ_self _)]
    exact findSpan_openChild c k nm
  show (closeSpan cMid c.nextId TraceState.SUCCESS none).spans = _
  rw [closeSpan_spans_open cMid c.nextId TraceState.SUCCESS none _ hfmid rfl]
  rw [show cMid.spans = new2 ++
    ({ spanId := c.nextId, traceId := parentTraceId c,
       parentSpanId := currentId c, kind := k, name := nm,
       status := .UNSET, statusMessage := none,
       startTime := c.clock, endTime := none } :: c.spans) from hspans2]
  rw [List.map_append, List.map_cons]
  rw [map_close_id c.nextId TraceState.SUCCESS none cMid.clock new2
    (fun s hs => by have h2 := hbound s hs; omega)]
  rw [if_pos (by simp)]
  rw [map_close_id c.nextId TraceState.SUCCESS none cMid.clock c.spans
    (fun s hs => Nat.ne_of_lt (hS s hs).1)]
  rw [List.append_cons]

mutual
theorem runCall_exact : ∀ (t : CallTree) (c : Core), SpansOK c → CtxOK c →
    (runCall c t).nextId
        = (callSpans c.nextId (parentTraceId c) (currentId c) t).2 ∧
    ∃ new : List Span, (runCall c t).spans = new ++ c.spans ∧
      new.reverse.map spanSig
        = (callSpans c.nextId (parentTraceId c) (currentId c) t).1
  | CallTree.node k nm children, c => by
    intro hS hC
    rw [runCall]
    simp only [callSpans]
    have hIH := runCalls_exact children (openChild c k nm).2.2
      (openChild_SpansOK c k nm hS) (openChild_CtxOK c k nm hC)
      (List.cons_ne_nil _ _)
    rw [parentTraceId_openChild c k nm] at hIH
    have hIH2 : (runCalls (openChild c k nm).2.2 children).nextId
        = (callSpansList (c.nextId + 1) (parentTraceId c) (some c.nextId)
            children).2 ∧
      ∃ new : List Span, (runCalls (openChild c k nm).2.2 children).spans
          = new ++ (openChild c k nm).2.2.spans ∧
        new.reverse.map spanSig
          = (callSpansList (c.nextId + 1) (parentTraceId c) (some c.nextId)
              children).1 := hIH
    obtain ⟨hnid, new2, hsp2, hsig2⟩ := hIH2
    have hbound : ∀ s ∈ new2, c.nextId + 1 ≤ s.spanId := by
      intro s hs
      have hmem : spanSig s ∈ new2.reverse.map spanSig :=
        List.mem_map_of_mem _ (List.mem_reverse.mpr hs)
      rw [hsig2] at hmem
      have h3 := (callSpansList_entries children (c.nextId + 1)
        (parentTraceId c) (some c.nextId)).2 _ hmem
      exact h3.2.1
    constructor
    · show (closeSpan (runCalls (openChild c k nm).2.2 children) c.nextId
        TraceState.SUCCESS none).nextId = _
      rw [closeSpan_nextId]
      exact hnid
    · refine ⟨new2 ++ [closeSpanFields TraceState.SUCCESS none
        (runCalls (openChild c k nm).2.2 children).clock
        { spanId := c.nextId, traceId := parentTraceId c,
          parentSpanId := currentId c, kind := k, name := nm,
          status := .UNSET, statusMessage := none,
          startTime := c.clock, endTime := none }], ?_, ?_⟩
      · exact runCall_spans_decomp c k nm
          (runCalls (openChild c k nm).2.2 children) new2 hS hsp2 hbound
      · rw [List.reverse_append, List.reverse_singleton,
          List.singleton_append, List.map_cons, hsig2]
        rfl
termination_by t => sizeOf t

theorem runCalls_exact : ∀ (ts : List CallTree) (c : Core), SpansOK c →
    CtxOK c → c.ctx ≠ [] →
    (runCalls c ts).nextId
        = (callSpansList c.nextId (parentTraceId c) (currentId c) ts).2 ∧
    ∃ new : List Span, (runCalls c ts).spans = new ++ c.spans ∧
      new.reverse.map spanSig
        = (callSpansList c.nextId (parentTraceId c) (currentId c) ts).1
  | [], c => by
    intro _ _ _
    rw [runCalls]
    simp only [callSpansList]
    exact ⟨trivial, [], by simp, by simp⟩
  | t :: ts2, c => by
    intro hS hC hne
    rw [runCalls]
    simp only [callSpansList]
    have h1 := runCall_exact t c hS hC
    obtain ⟨hnid1, new1, hsp1, hsig1⟩ := h1
    have hWrap := runCall_inv t c hS hC
    have hwf := wrapExtends_wf c (runCall c t) hS hC hWrap
    have hstab := wrapExtends_stable c (runCall c t) hC hWrap hne
    have hne2 : (runCall c t).ctx ≠ [] := by
      rw [hWrap.2.1]
      exact hne
    have h2 := runCalls_exact ts2 (runCall c t) hwf.1 hwf.2 hne2
    rw [hstab.1, hstab.2, hnid1] at h2
    obtain ⟨hnid2, new2, hsp2, hsig2⟩ := h2
    refine ⟨hnid2, new2 ++ new1, ?_, ?_⟩
    · rw [hsp2, hsp1, List.append_assoc]
    · rw [List.reverse_append, List.map_append, hsig1, hsig2]
termination_by ts => sizeOf ts
end

/-- C1: nesting invariant.  Run under a current context `p` belonging to
trace `r`, a tree of nested wrapped calls creates exactly the spans of
`callSpans` (listed in creation order by `new.reverse`): the outermost call's
span is parented on `p`, every inner call's span is parented on precisely the
span id of its enclosing call — the span-id that was the current context at
the moment that inner call was entered — and every span of the chain carries
the root's trace id `r.traceId`. -/
theorem nested_calls_nesting (c : Core) (t : CallTree) (p : Nat) (r : Span)
    (hS : SpansOK c) (hC : CtxOK c) (hcur : currentId c = some p)
    (hp : findSpan c p = some r) :
    ∃ new : List Span, (runCall c t).spans = new ++ c.spans ∧
      new.reverse.map spanSig = (callSpans c.nextId r.traceId (some p) t).1 ∧
      ∀ s ∈ new, s.traceId = r.traceId := by
  have hpt : parentTraceId c = r.traceId := by
    unfold parentTraceId
    rw [hcur]
    simp only [Option.some_bind]
    rw [hp]
    simp
  have h := runCall_exact t c hS hC
  rw [hpt, hcur] at h
  obtain ⟨hnid, new, hsp, hsig⟩ := h
  refine ⟨new, hsp, hsig, ?_⟩
  intro s hs
  have hmem : spanSig s ∈ new.reverse.map spanSig :=
    List.mem_map_of_mem _ (List.mem_reverse.mpr hs)
  rw [hsig] at hmem
  exact ((callSpans_entries t c.nextId r.traceId (some p)).2 _ hmem).1

theorem nested_calls_nesting_witness :
    ∃ new : List Span,
      (runCall coreOne sampleTree).spans = new ++ coreOne.spans ∧
      new.reverse.map spanSig = (callSpans 1 0 (some 0) sampleTree).1 ∧
      ∀ s ∈ new, s.traceId = (0 : Nat) :=
  nested_calls_nesting coreOne sampleTree 0
    { spanId := 0, traceId := 0, parentSpanId := none, kind := .SESSION,
      name := "session", status := .UNSET, statusMessage := none,
      startTime := 0, endTime := none }
    (by decide) (by decide) (by decide) (by decide)
